import Mathlib

/-!
Shallow embedding of `gpm_monitor.py` (class `GPMMonitor`): the report parser
`_parse_output`, the CSV writers, and the sampling loop `run`, together with
proofs of the specification claims about them.

Conventions of the embedding:
* Python strings are modelled as `List Char` while being scanned (so that all
  operations are structurally recursive and kernel-computable) and as `String`
  in the record fields; `str.split()` (no argument) splits on whitespace runs
  dropping empty pieces, `str.strip()` removes surrounding whitespace, and
  `split('\n')` keeps empty pieces.  (Python's whitespace set also holds a few
  rare control characters such as vertical tab; probe reports contain none, so
  the ASCII whitespace set of `Char.isWhitespace` is used.)
* `str.isdigit()` is modelled over ASCII digits (Python additionally accepts
  Unicode digit characters, which the probe never emits).
* `float(tok)` success is modelled by `pyFloatOk`, following CPython's float
  grammar: optional whitespace, optional sign, then a decimal mantissa with
  optional exponent, or the literals inf/infinity/nan case-insensitively.
  (Digit-group underscores, accepted by CPython 3.6+, are omitted as irrelevant
  to probe output.)
* The two regular expressions are modelled by explicit matchers: `matchGPU`
  for `re.match(r'GPU (\d+): (.+)', line)` and `searchGICI` for
  `re.search(r'GI: (\d+), CI: (\d+)', line)`.
* Wall-clock readings, the probe subprocess and the SIGINT flag are modelled
  by an explicit per-tick environment `TickEnv`; the observable side effects
  of `run` (writes to the CSV sink, probe invocations, sleeps, the final
  sample-count report) form a trace of `Action`s.
-/

namespace GPM

/-- One parsed metric row (the dict appended to `metrics` in `_parse_output`). -/
structure MetricReading where
  id : String
  name : String
  value : String
  unit : String
deriving DecidableEq, Repr

/-- The dict returned by `_parse_output`: one tick's sample. -/
structure Sample where
  device_id : String
  device_name : String
  gpu_instance_id : String
  compute_instance_id : String
  metrics : List MetricReading
deriving DecidableEq, Repr

/-- Python truthiness fallback `x or d` for an optional string:
`None` and the empty string are falsy. -/
def pyOrS (x : Option String) (d : String) : String :=
  match x with
  | some s => if s = "" then d else s
  | none => d

/-- Python `str.isdigit()` restricted to ASCII: nonempty and all characters
are decimal digits. -/
def pyIsDigit (s : List Char) : Bool :=
  !s.isEmpty && s.all Char.isDigit

/-- Whitespace splitting with an accumulator for the token being read
(reversed); models Python `str.split()` with no separator. -/
def splitWsAux : List Char → List Char → List (List Char)
  | [], acc => if acc.isEmpty then [] else [acc.reverse]
  | c :: rest, acc =>
    if c.isWhitespace then
      if acc.isEmpty then splitWsAux rest []
      else acc.reverse :: splitWsAux rest []
    else splitWsAux rest (c :: acc)

/-- Python `str.split()` with no separator: split on whitespace runs,
dropping empty pieces. -/
def pySplit (s : List Char) : List (List Char) :=
  splitWsAux s []

/-- Newline splitting with an accumulator for the current line (reversed);
models Python `split('\n')`, which keeps empty pieces. -/
def splitLinesAux : List Char → List Char → List (List Char)
  | [], acc => [acc.reverse]
  | c :: rest, acc =>
    if c = '\n' then acc.reverse :: splitLinesAux rest []
    else splitLinesAux rest (c :: acc)

/-- Python `split('\n')`. -/
def splitLines (s : List Char) : List (List Char) :=
  splitLinesAux s []

/-- Strip leading and trailing whitespace; models Python `str.strip()`. -/
def stripWs (s : List Char) : List Char :=
  ((s.dropWhile Char.isWhitespace).reverse.dropWhile Char.isWhitespace).reverse

/-- True when the list starts with a decimal digit. -/
def hasDigitLead (s : List Char) : Bool :=
  match s with
  | c :: _ => c.isDigit
  | [] => false

/-- Accepts the optional exponent part of a float literal followed by
end of input: empty, or `e`/`E`, optional sign, one or more digits. -/
def expOk (s : List Char) : Bool :=
  match s with
  | [] => true
  | c :: rest =>
    if c = 'e' || c = 'E' then
      let rest2 :=
        match rest with
        | d :: tl => if d = '+' || d = '-' then tl else rest
        | [] => rest
      hasDigitLead rest2 && (rest2.dropWhile Char.isDigit).isEmpty
    else false

/-- Accepts an unsigned float mantissa with optional exponent:
`digits [. digits] [exp]` or `. digits [exp]`. -/
def floatCore (s : List Char) : Bool :=
  let intPart := s.takeWhile Char.isDigit
  let rest := s.dropWhile Char.isDigit
  if intPart.isEmpty then
    match rest with
    | '.' :: r2 => hasDigitLead r2 && expOk (r2.dropWhile Char.isDigit)
    | _ => false
  else
    match rest with
    | '.' :: r2 => expOk (r2.dropWhile Char.isDigit)
    | _ => expOk rest

/-- Case-insensitive comparison of a character list against a lowercase word. -/
def lcEq (s t : List Char) : Bool :=
  s.map Char.toLower = t

/-- Success of Python `float(s)`: optional surrounding whitespace, optional
sign, then a float mantissa/exponent or inf/infinity/nan (any case). -/
def pyFloatOk (s : List Char) : Bool :=
  let t := stripWs s
  let t2 :=
    match t with
    | c :: r => if c = '+' || c = '-' then r else t
    | [] => t
  lcEq t2 "inf".data || lcEq t2 "infinity".data || lcEq t2 "nan".data || floatCore t2

/-- Substring containment, modelling Python `pat in s`. -/
def listContains : List Char → List Char → Bool
  | s@(_ :: tl), pat => List.isPrefixOf pat s || listContains tl pat
  | [], pat => pat.isEmpty

/-- Model of `line.startswith('GPU ')`. -/
def startsGPU (line : List Char) : Bool :=
  List.isPrefixOf ("GPU ".data) line

/-- Model of `re.match(r'GPU (\d+): (.+)', line)`: the line starts with
the literal `GPU `, then one or more digits (group 1), then `: `, then at
least one further character (group 2, the rest of the line). -/
def matchGPU (line : List Char) : Option (String × String) :=
  if startsGPU line then
    let rest := line.drop 4
    let ds := rest.takeWhile Char.isDigit
    let r2 := rest.dropWhile Char.isDigit
    if ds.isEmpty then none
    else
      match r2 with
      | ':' :: ' ' :: tail =>
        if tail.isEmpty then none else some (String.mk ds, String.mk tail)
      | _ => none
  else none

/-- Attempt to match `GI: (\d+), CI: (\d+)` at the head of the list. -/
def giciAt (s : List Char) : Option (String × String) :=
  match s with
  | 'G' :: 'I' :: ':' :: ' ' :: r =>
    let ds := r.takeWhile Char.isDigit
    let r2 := r.dropWhile Char.isDigit
    if ds.isEmpty then none
    else
      match r2 with
      | ',' :: ' ' :: 'C' :: 'I' :: ':' :: ' ' :: r3 =>
        let ds2 := r3.takeWhile Char.isDigit
        if ds2.isEmpty then none else some (String.mk ds, String.mk ds2)
      | _ => none
  | _ => none

/-- Model of `re.search(r'GI: (\d+), CI: (\d+)', line)`: leftmost match. -/
def searchGICI : List Char → Option (String × String)
  | [] => none
  | c :: rest =>
    match giciAt (c :: rest) with
    | some p => some p
    | none => searchGICI rest

/-- The device/partition identity fields accumulated by the first loop of
`_parse_output` (all start out as Python `None`). -/
structure IdState where
  device_id : Option String
  device_name : Option String
  gpu_instance_id : Option String
  compute_instance_id : Option String
deriving DecidableEq, Repr

/-- Initial identity state: all four variables are `None`. -/
def initIdState : IdState := ⟨none, none, none, none⟩

/-- One iteration of the identity loop of `_parse_output`
(lines 54-64 of the source): `if line.startswith('GPU ')` try the GPU
pattern and on success overwrite both device fields; `elif 'MIG Slice' in
line` search the GI/CI pattern and on success overwrite both instance
fields. -/
def identityStep (st : IdState) (line : List Char) : IdState :=
  if startsGPU line then
    match matchGPU line with
    | some p => { st with device_id := some p.1, device_name := some p.2 }
    | none => st
  else if listContains line ("MIG Slice".data) then
    match searchGICI line with
    | some p => { st with gpu_instance_id := some p.1, compute_instance_id := some p.2 }
    | none => st
  else st

/-- The scan `for i, part in enumerate(parts[1:], 1): try: float(part) ...`:
first index (counting from the supplied offset) whose token parses as a
float, or `none` (Python's `value_idx = -1`). -/
def findFloat : List (List Char) → Nat → Option Nat
  | [], _ => none
  | p :: rest, i => if pyFloatOk p then some i else findFloat rest (i + 1)

/-- The value boundary of a row: first index `≥ 1` whose token parses
as a float. -/
def valueIdx (parts : List (List Char)) : Option Nat :=
  findFloat (parts.drop 1) 1

/-- Python `'_'.join(tokens)`. -/
def joinUnderscore : List (List Char) → List Char
  | [] => []
  | [t] => t
  | t :: rest => t ++ '_' :: joinUnderscore rest

/-- Row decomposition (lines 81-106 of the source) on the whitespace tokens
of a candidate data row: requires at least five tokens and a digit-only
first token, locates the value boundary, joins the name tokens with `_`,
takes the value and (when present) unit tokens, and keeps the row only when
the last token is `OK`.  Index accesses are in range whenever reached, so
the `except (ValueError, IndexError)` of the source never fires. -/
def parseRow (parts : List (List Char)) : Option MetricReading :=
  if 5 ≤ parts.length ∧ pyIsDigit (parts.getD 0 []) then
    match valueIdx parts with
    | some i =>
      if 0 < i then
        let name := joinUnderscore ((parts.drop 1).take (i - 1))
        let value := parts.getD i []
        let unit := if i + 1 < parts.length then parts.getD (i + 1) [] else []
        let status := parts.getLastD []
        if status = "OK".data then
          some { id := String.mk (parts.getD 0 []), name := String.mk name,
                 value := String.mk value, unit := String.mk unit }
        else none
      else none
    | none => none
  else none

/-- One iteration of the table loop of `_parse_output` (lines 70-108):
state is `(in_table, metrics)`.  A line containing `ID`, `Name` and `Value`
turns the flag on and is skipped; a line containing `-----` is skipped;
otherwise, inside the table, a line with nonempty strip is split into
tokens and fed to the row parser, appending any resulting reading. -/
def tableStep (st : Bool × List MetricReading) (line : List Char) : Bool × List MetricReading :=
  if listContains line ("ID".data) ∧ listContains line ("Name".data) ∧
      listContains line ("Value".data) then
    (true, st.2)
  else if listContains line ("-----".data) then
    st
  else if st.1 ∧ ¬(stripWs line).isEmpty then
    match parseRow (pySplit line) with
    | some m => (st.1, st.2 ++ [m])
    | none => st
  else st

/-- `GPMMonitor._parse_output`: strip the raw text, split into lines, run
the identity loop and then the table loop, and assemble the sample dict
with the `or`-defaults of lines 110-116. -/
def parse_output (output : String) : Sample :=
  let lines := splitLines (stripWs output.data)
  let idf := lines.foldl identityStep initIdState
  let tf := lines.foldl tableStep (false, [])
  { device_id := pyOrS idf.device_id "0",
    device_name := pyOrS idf.device_name "Unknown",
    gpu_instance_id := pyOrS idf.gpu_instance_id "",
    compute_instance_id := pyOrS idf.compute_instance_id "",
    metrics := tf.2 }

/-! ### Specification-side descriptions used by the refinement claims -/

/-- Last successful application of an extractor over the lines, later
lines taking precedence: the overwrite semantics of the identity loop,
stated the way the spec speaks of "the matching line whose captures are
used". -/
def lastSome {α : Type} (f : List Char → Option α) : List (List Char) → Option α
  | [] => none
  | l :: ls =>
    match lastSome f ls with
    | some v => some v
    | none => f l

/-- What the elif branch of the identity loop extracts from one line:
a GI/CI pair, considered only when the line does not start with `GPU `
and contains `MIG Slice`. -/
def giciLine (line : List Char) : Option (String × String) :=
  if startsGPU line then none
  else if listContains line ("MIG Slice".data) then searchGICI line
  else none

/-! ### The sampling loop `GPMMonitor.run` -/

/-- Outcome of one `subprocess.run([self.binary_path], ...)` call:
successful exit with stdout, non-zero exit with stderr,
`subprocess.TimeoutExpired`, or `FileNotFoundError`. -/
inductive ProbeResult where
  | success (stdout : String)
  | nonzero (stderr : String)
  | timeoutExpired
  | notFound
deriving DecidableEq, Repr

/-- The environment one loop iteration observes: whether the SIGINT/SIGTERM
handler has cleared `self.running` before the `while` test, the
`time.time()` reading at the duration check, the `datetime.now().isoformat()`
timestamp, the probe outcome, and the tick's elapsed time
`time.time() - iter_start` used for the sleep computation. -/
structure TickEnv where
  cancelled : Bool
  tCheck : ℚ
  stamp : String
  probe : ProbeResult
  elapsed : ℚ
deriving DecidableEq, Repr

/-- The configuration `run` depends on: `self.interval_sec` and the
`duration_sec` argument (`none` models Python `None`, i.e. infinite). -/
structure Config where
  interval_sec : ℚ
  duration : Option Int
deriving DecidableEq, Repr

/-- Observable side effects of `run`: the CSV header write, a probe
invocation (tagged with its tick's environment), one CSV data-row write,
a `time.sleep` call, and the final `Total samples collected` report from
the `finally` block. -/
inductive Action where
  | writeHeader
  | invokeProbe (e : TickEnv)
  | writeRow (line : String)
  | sleepFor (t : ℚ)
  | reportTotal (n : Nat)
deriving DecidableEq, Repr

/-- Why the loop ended: `self.running` cleared, duration limit, non-zero
probe exit, probe binary not found, or the supplied environment list ran
out (modelling a still-running infinite loop cut off for observation). -/
inductive StopReason where
  | cancelledStop
  | durationLimit
  | fatalError
  | fatalNotFound
  | exhausted
deriving DecidableEq, Repr

/-- The header line written by `_write_csv_header`. -/
def csvHeader : String :=
  "timestamp,device_id,device_name,gpu_instance_id,compute_instance_id,metric_id,metric_name,value,unit"

/-- One data row written by `_write_csv_row` for one metric. -/
def csvRow (ts : String) (d : Sample) (m : MetricReading) : String :=
  ts ++ "," ++ d.device_id ++ "," ++ d.device_name ++ "," ++
    d.gpu_instance_id ++ "," ++ d.compute_instance_id ++ "," ++
    m.id ++ "," ++ m.name ++ "," ++ m.value ++ "," ++ m.unit

/-- `_write_csv_row`: one write per metric of the sample, in order. -/
def write_csv_row (ts : String) (d : Sample) : List Action :=
  d.metrics.map (fun m => Action.writeRow (csvRow ts d m))

/-- The guard `if duration_sec and (time.time() - start_time) >= duration_sec`:
false when `duration_sec` is `None` or `0` (both falsy in Python). -/
def durationCheck (d : Option Int) (start now : ℚ) : Bool :=
  match d with
  | none => false
  | some v => v ≠ 0 && ((v : ℚ) ≤ now - start)

/-- `sleep_time = max(0, self.interval_sec - elapsed)`. -/
def sleepTime (interval_sec elapsed : ℚ) : ℚ :=
  max 0 (interval_sec - elapsed)

/-- The `while self.running` loop of `run`, iterated over the per-tick
environments, carrying the `iteration` counter.  Each iteration: observe
the running flag, check the duration limit, invoke the probe, and act on
its outcome exactly as lines 148-194 of the source do (success: parse,
write rows, count, then sleep the positive remainder of the interval;
timeout: `continue`; non-zero exit or missing binary: `break`). -/
def runLoop (cfg : Config) (start : ℚ) : List TickEnv → Nat → List Action × Nat × StopReason
  | [], n => ([], n, StopReason.exhausted)
  | e :: rest, n =>
    if e.cancelled then ([], n, StopReason.cancelledStop)
    else if durationCheck cfg.duration start e.tCheck then ([], n, StopReason.durationLimit)
    else
      match e.probe with
      | ProbeResult.success out =>
        let data := parse_output out
        let rows := write_csv_row e.stamp data
        let st := sleepTime cfg.interval_sec e.elapsed
        let sleepActs := if 0 < st then [Action.sleepFor st] else []
        let r := runLoop cfg start rest (n + 1)
        (Action.invokeProbe e :: (rows ++ sleepActs ++ r.1), r.2.1, r.2.2)
      | ProbeResult.nonzero _ => ([Action.invokeProbe e], n, StopReason.fatalError)
      | ProbeResult.timeoutExpired =>
        let r := runLoop cfg start rest n
        (Action.invokeProbe e :: r.1, r.2.1, r.2.2)
      | ProbeResult.notFound => ([Action.invokeProbe e], n, StopReason.fatalNotFound)

/-- `GPMMonitor.run`: write the CSV header, run the loop from
`iteration = 0`, and (from the `finally` block, on every exit path)
report the total number of samples collected. -/
def run (cfg : Config) (start : ℚ) (envs : List TickEnv) : List Action × Nat × StopReason :=
  let r := runLoop cfg start envs 0
  (Action.writeHeader :: (r.1 ++ [Action.reportTotal r.2.1]), r.2.1, r.2.2)

/-! ### Lemmas about the identity loop -/

theorem matchGPU_startsGPU {line : List Char} {p : String × String}
    (h : matchGPU line = some p) : startsGPU line = true := by
  by_cases hs : startsGPU line = true
  · exact hs
  · simp [matchGPU, hs] at h

theorem identityStep_device (st : IdState) (line : List Char) :
    ((identityStep st line).device_id, (identityStep st line).device_name) =
      (match matchGPU line with
        | some p => (some p.1, some p.2)
        | none => (st.device_id, st.device_name)) := by
  cases h : matchGPU line with
  | some p =>
    have hs := matchGPU_startsGPU h
    simp [identityStep, hs, h]
  | none =>
    by_cases hs : startsGPU line = true
    · simp [identityStep, hs, h]
    · by_cases hc : listContains line ("MIG Slice".data) = true
      · cases hg : searchGICI line with
        | some q => simp [identityStep, hs, hc, hg]
        | none => simp [identityStep, hs, hc, hg]
      · simp [identityStep, hs, hc]

theorem identityStep_gici (st : IdState) (line : List Char) :
    ((identityStep st line).gpu_instance_id, (identityStep st line).compute_instance_id) =
      (match giciLine line with
        | some p => (some p.1, some p.2)
        | none => (st.gpu_instance_id, st.compute_instance_id)) := by
  by_cases hs : startsGPU line = true
  · cases h : matchGPU line with
    | some p => simp [identityStep, giciLine, hs, h]
    | none => simp [identityStep, giciLine, hs, h]
  · by_cases hc : listContains line ("MIG Slice".data) = true
    · cases hg : searchGICI line with
      | some q => simp [identityStep, giciLine, hs, hc, hg]
      | none => simp [identityStep, giciLine, hs, hc, hg]
    · simp [identityStep, giciLine, hs, hc]

theorem foldl_identity_device (lines : List (List Char)) :
    ∀ st : IdState,
      ((lines.foldl identityStep st).device_id, (lines.foldl identityStep st).device_name) =
        (match lastSome matchGPU lines with
          | some p => (some p.1, some p.2)
          | none => (st.device_id, st.device_name)) := by
  induction lines with
  | nil => intro st; simp [lastSome]
  | cons l ls ih =>
    intro st
    rw [List.foldl_cons, ih (identityStep st l)]
    cases h : lastSome matchGPU ls with
    | some p => simp [lastSome, h]
    | none => simpa [lastSome, h] using identityStep_device st l

theorem foldl_identity_gici (lines : List (List Char)) :
    ∀ st : IdState,
      ((lines.foldl identityStep st).gpu_instance_id,
          (lines.foldl identityStep st).compute_instance_id) =
        (match lastSome giciLine lines with
          | some p => (some p.1, some p.2)
          | none => (st.gpu_instance_id, st.compute_instance_id)) := by
  induction lines with
  | nil => intro st; simp [lastSome]
  | cons l ls ih =>
    intro st
    rw [List.foldl_cons, ih (identityStep st l)]
    cases h : lastSome giciLine ls with
    | some p => simp [lastSome, h]
    | none => simpa [lastSome, h] using identityStep_gici st l

theorem lastSome_eq_none {α : Type} {f : List Char → Option α} :
    ∀ {ls : List (List Char)}, (∀ l ∈ ls, f l = none) → lastSome f ls = none := by
  intro ls
  induction ls with
  | nil => intro _; rfl
  | cons l ls ih =>
    intro h
    have h1 := h l (List.mem_cons_self l ls)
    have h2 := ih fun x hx => h x (List.mem_cons_of_mem l hx)
    simp [lastSome, h1, h2]

/-! ### Claims about the identity section -/

/-- Claim C2, counterexample: on an input with two device-identity lines the
parser reports the identifiers of the second (last) one, not the first, and
likewise for two partition lines — the claim that only the first matching
line of each kind is used is false. -/
theorem claim_C2_counterexample :
    (parse_output "GPU 0: Alpha\nGPU 1: Beta").device_id = "1" ∧
      (parse_output "GPU 0: Alpha\nGPU 1: Beta").device_id ≠ "0" ∧
      (parse_output "MIG Slice GI: 1, CI: 2\nMIG Slice GI: 3, CI: 4").gpu_instance_id = "3" ∧
      (parse_output "MIG Slice GI: 1, CI: 2\nMIG Slice GI: 3, CI: 4").gpu_instance_id ≠ "1" ∧
      (parse_output "MIG Slice GI: 1, CI: 2\nMIG Slice GI: 3, CI: 4").compute_instance_id = "4" := by
  refine ⟨by decide, by decide, by decide, by decide, by decide⟩

/-- Shared characterization of the identity fields of a parsed sample: each
comes from the last matching line of its kind, with the Python `or` default
applied. -/
theorem parse_output_identity (output : String) :
    (parse_output output).device_id =
        pyOrS ((lastSome matchGPU (splitLines (stripWs output.data))).map Prod.fst) "0" ∧
      (parse_output output).device_name =
        pyOrS ((lastSome matchGPU (splitLines (stripWs output.data))).map Prod.snd) "Unknown" ∧
      (parse_output output).gpu_instance_id =
        pyOrS ((lastSome giciLine (splitLines (stripWs output.data))).map Prod.fst) "" ∧
      (parse_output output).compute_instance_id =
        pyOrS ((lastSome giciLine (splitLines (stripWs output.data))).map Prod.snd) "" := by
  have hd := foldl_identity_device (splitLines (stripWs output.data)) initIdState
  have hg := foldl_identity_gici (splitLines (stripWs output.data)) initIdState
  unfold parse_output
  cases h1 : lastSome matchGPU (splitLines (stripWs output.data)) with
  | some p =>
    rw [h1] at hd
    cases h2 : lastSome giciLine (splitLines (stripWs output.data)) with
    | some q =>
      rw [h2] at hg
      simp_all [Prod.ext_iff]
    | none =>
      rw [h2] at hg
      simp_all [Prod.ext_iff, initIdState, pyOrS]
  | none =>
    rw [h1] at hd
    cases h2 : lastSome giciLine (splitLines (stripWs output.data)) with
    | some q =>
      rw [h2] at hg
      simp_all [Prod.ext_iff, initIdState, pyOrS]
    | none =>
      rw [h2] at hg
      simp_all [Prod.ext_iff, initIdState, pyOrS]

/-- Claim C2, amended: each matching line of a kind overwrites the previously
captured identifiers, so the parser uses the last matching line of each kind
(device lines are the ones matching the GPU pattern; partition lines are the
ones not starting with `GPU ` that contain `MIG Slice` and match the GI/CI
pattern), with the sentinel defaults when no line of that kind matches. -/
theorem claim_C2 (output : String) :
    (parse_output output).device_id =
        pyOrS ((lastSome matchGPU (splitLines (stripWs output.data))).map Prod.fst) "0" ∧
      (parse_output output).device_name =
        pyOrS ((lastSome matchGPU (splitLines (stripWs output.data))).map Prod.snd) "Unknown" ∧
      (parse_output output).gpu_instance_id =
        pyOrS ((lastSome giciLine (splitLines (stripWs output.data))).map Prod.fst) "" ∧
      (parse_output output).compute_instance_id =
        pyOrS ((lastSome giciLine (splitLines (stripWs output.data))).map Prod.snd) "" :=
  parse_output_identity output

/-- Claim C5: when no line of the input matches the device-identity pattern
the sample carries the sentinel identity `deviceId = "0"`,
`deviceName = "Unknown"`, and when additionally no line yields a partition
match the partition identifiers are empty; the sample is still built and
returned. -/
theorem claim_C5 (output : String)
    (hgpu : ∀ l ∈ splitLines (stripWs output.data), matchGPU l = none)
    (hgici : ∀ l ∈ splitLines (stripWs output.data), giciLine l = none) :
    (parse_output output).device_id = "0" ∧
      (parse_output output).device_name = "Unknown" ∧
      (parse_output output).gpu_instance_id = "" ∧
      (parse_output output).compute_instance_id = "" := by
  have h := parse_output_identity output
  rw [lastSome_eq_none hgpu, lastSome_eq_none hgici] at h
  simpa [pyOrS] using h

/-- Claim C5 witness: a report with no identity lines at all yields the
sentinel identity fields. -/
theorem claim_C5_witness :
    (parse_output "hello\nworld").device_id = "0" ∧
      (parse_output "hello\nworld").device_name = "Unknown" ∧
      (parse_output "hello\nworld").gpu_instance_id = "" ∧
      (parse_output "hello\nworld").compute_instance_id = "" :=
  claim_C5 "hello\nworld" (by decide) (by decide)

/-! ### Lemmas about the table loop and row decomposition -/

theorem parseRow_status {parts : List (List Char)} (h : parts.getLastD [] ≠ "OK".data) :
    parseRow parts = none := by
  unfold parseRow
  split
  · cases hv : valueIdx parts with
    | none => rfl
    | some i =>
      by_cases hi : 0 < i
      · simp [hi]
        simpa using h
      · simp [hi]
  · rfl

theorem tableStep_metrics (st : Bool × List MetricReading) (line : List Char) :
    (tableStep st line).2 = st.2 ∨
      ∃ m, parseRow (pySplit line) = some m ∧ (tableStep st line).2 = st.2 ++ [m] := by
  unfold tableStep
  split
  · exact Or.inl rfl
  · split
    · exact Or.inl rfl
    · split
      · cases hp : parseRow (pySplit line) with
        | some m => exact Or.inr ⟨m, rfl, rfl⟩
        | none => exact Or.inl rfl
      · exact Or.inl rfl

theorem foldl_tableStep_mem (lines : List (List Char)) :
    ∀ (st : Bool × List MetricReading) (m : MetricReading),
      m ∈ (lines.foldl tableStep st).2 →
      m ∈ st.2 ∨ ∃ l ∈ lines, parseRow (pySplit l) = some m := by
  induction lines with
  | nil =>
    intro st m h
    exact Or.inl h
  | cons l ls ih =>
    intro st m h
    rw [List.foldl_cons] at h
    rcases ih (tableStep st l) m h with h1 | ⟨l2, hl2, hp⟩
    · rcases tableStep_metrics st l with he | ⟨m2, hm2, he⟩
      · rw [he] at h1
        exact Or.inl h1
      · rw [he] at h1
        rcases List.mem_append.1 h1 with h2 | h2
        · exact Or.inl h2
        · have hmm : m = m2 := by simpa using h2
          exact Or.inr ⟨l, List.mem_cons_self l ls, by rw [hmm]; exact hm2⟩
    · exact Or.inr ⟨l2, List.mem_cons_of_mem l hl2, hp⟩

theorem getD_drop {α : Type} (l : List α) (d : α) :
    ∀ (n m : Nat), (l.drop n).getD m d = l.getD (n + m) d := by
  induction l with
  | nil => intro n m; simp [List.getD]
  | cons x xs ih =>
    intro n m
    cases n with
    | zero => simp
    | succ k =>
      rw [List.drop_succ_cons, ih k m, Nat.succ_add, List.getD_cons_succ]

theorem findFloat_first :
    ∀ (l : List (List Char)) (k m : Nat), m < l.length →
      pyFloatOk (l.getD m []) = true →
      (∀ j, j < m → pyFloatOk (l.getD j []) = false) →
      findFloat l k = some (k + m) := by
  intro l
  induction l with
  | nil =>
    intro k m hm
    exact absurd hm (by simp)
  | cons x xs ih =>
    intro k m hm hf hbefore
    by_cases hx : pyFloatOk x = true
    · have hm0 : m = 0 := by
        by_contra h0
        have hb := hbefore 0 (Nat.pos_of_ne_zero h0)
        rw [List.getD_cons_zero, hx] at hb
        cases hb
      subst hm0
      simp [findFloat, hx]
    · have hm0 : m ≠ 0 := by
        intro h0
        subst h0
        rw [List.getD_cons_zero] at hf
        exact hx hf
      obtain ⟨m2, rfl⟩ : ∃ m2, m = m2 + 1 := ⟨m - 1, by omega⟩
      have hrec := ih (k + 1) m2
        (by simp only [List.length_cons] at hm; omega)
        (by rw [List.getD_cons_succ] at hf; exact hf)
        (fun j hj => by
          have hb := hbefore (j + 1) (by omega)
          rw [List.getD_cons_succ] at hb
          exact hb)
      simp only [findFloat, hx, if_false, Bool.false_eq_true, hrec]
      simp only [Option.some.injEq]
      omega

theorem valueIdx_eq_some {parts : List (List Char)} {i : Nat}
    (hi1 : 1 ≤ i) (hil : i < parts.length)
    (hf : pyFloatOk (parts.getD i []) = true)
    (hbefore : ∀ j < i, 1 ≤ j → pyFloatOk (parts.getD j []) = false) :
    valueIdx parts = some i := by
  unfold valueIdx
  have hlen : i - 1 < (parts.drop 1).length := by
    rw [List.length_drop]
    omega
  have hidx : 1 + (i - 1) = i := by omega
  have h := findFloat_first (parts.drop 1) 1 (i - 1) hlen
    (by rw [getD_drop, hidx]; exact hf)
    (fun j hj => by
      rw [getD_drop]
      exact hbefore (1 + j) (by omega) (by omega))
  rw [h]
  simp only [Option.some.injEq]
  omega

/-! ### Claims about row decomposition and parser totality -/

/-- Claim C1, counterexample: a grammatical 4-token data row (no unit) is
rejected by the `len(parts) >= 5` gate and yields no reading, and a 5-token
row whose status is not `OK` also yields no reading — so the claim does not
hold for rows with fewer than five tokens. -/
theorem claim_C1_counterexample :
    (parse_output "GPU 0: X\n ID Name Value Status\n-----\n3 Power 42.5 OK").metrics = [] ∧
      (parse_output "GPU 0: X\n ID Name Value Status\n-----\n3 Power 42.5 OK").metrics ≠
        [{ id := "3", name := "Power", value := "42.5", unit := "" }] ∧
      (parse_output "GPU 0: X\n ID Name Value Unit Status\n-----\n3 Power 42.5 W BAD").metrics
        = [] := by
  refine ⟨by decide, by decide, by decide⟩

/-- Claim C1, amended: for a data row of at least five whitespace-delimited
tokens whose first token is an unsigned integer, whose status (last) token is
the literal OK, and whose first float-parsable token after the id sits at
index i, the parser produces a reading whose name is the tokens strictly
between the id and the value boundary joined with underscores, whose value
is the boundary token as written, and whose unit is the following token when
one exists and empty otherwise. -/
theorem claim_C1 (parts : List (List Char)) (i : Nat)
    (h5 : 5 ≤ parts.length)
    (hid : pyIsDigit (parts.getD 0 []) = true)
    (hi1 : 1 ≤ i) (hil : i < parts.length)
    (hf : pyFloatOk (parts.getD i []) = true)
    (hbefore : ∀ j < i, 1 ≤ j → pyFloatOk (parts.getD j []) = false)
    (hok : parts.getLastD [] = "OK".data) :
    parseRow parts =
      some { id := String.mk (parts.getD 0 []),
             name := String.mk (joinUnderscore ((parts.take i).drop 1)),
             value := String.mk (parts.getD i []),
             unit := String.mk (if i + 1 < parts.length then parts.getD (i + 1) [] else []) } := by
  have hv := valueIdx_eq_some hi1 hil hf hbefore
  have hsplit : (parts.take i).drop 1 = (parts.drop 1).take (i - 1) := by
    rw [List.drop_take]
  unfold parseRow
  rw [if_pos ⟨h5, hid⟩, hv]
  dsimp only
  rw [if_pos (show 0 < i by omega), if_pos hok, hsplit]

/-- Claim C1 witness: the five-token-plus healthy row from the spec example. -/
theorem claim_C1_witness :
    parseRow ["3".data, "Power".data, "Usage".data, "42.5".data, "W".data, "OK".data] =
      some { id := "3", name := "Power_Usage", value := "42.5", unit := "W" } := by
  have h := claim_C1 ["3".data, "Power".data, "Usage".data, "42.5".data, "W".data, "OK".data] 3
    (by decide) (by decide) (by decide) (by decide) (by decide) (by decide) (by decide)
  rw [h]
  decide

/-- Claim C3: the parser is a total function — every input string yields a
Sample — and on a report whose table holds a structurally broken row between
two well-formed healthy rows it returns exactly the two well-formed readings
in encounter order. -/
theorem claim_C3 :
    (∀ output : String, ∃ s : Sample, parse_output output = s) ∧
      parse_output "GPU 0: TestGPU\n ID Name Value Unit Status\n-----\n1 Util 50.0 % OK\n2 Bad Row Here NoFloat\n3 Mem Used 1024.0 MiB OK" =
        { device_id := "0", device_name := "TestGPU", gpu_instance_id := "",
          compute_instance_id := "",
          metrics := [{ id := "1", name := "Util", value := "50.0", unit := "%" },
            { id := "3", name := "Mem_Used", value := "1024.0", unit := "MiB" }] } :=
  ⟨fun output => ⟨parse_output output, rfl⟩, by decide⟩

/-- Claim C4: a candidate row whose last token is not OK yields no reading;
a report with zero healthy rows yields an empty metrics list; and every
reading of any parsed sample stems from some line whose token list parses to
that reading and whose last token is OK. -/
theorem claim_C4 :
    (∀ parts : List (List Char), parts.getLastD [] ≠ "OK".data → parseRow parts = none) ∧
      (parse_output "GPU 0: X\n ID Name Value Unit Status\n-----\n1 Util 50.0 % ERR\n2 Mem 3.0 MiB FAIL").metrics = [] ∧
      (∀ (output : String) (m : MetricReading), m ∈ (parse_output output).metrics →
        ∃ l ∈ splitLines (stripWs output.data),
          parseRow (pySplit l) = some m ∧ (pySplit l).getLastD [] = "OK".data) := by
  refine ⟨fun parts h => parseRow_status h, by decide, ?_⟩
  intro output m hm
  have hm2 : m ∈ ((splitLines (stripWs output.data)).foldl tableStep (false, [])).2 := hm
  rcases foldl_tableStep_mem (splitLines (stripWs output.data)) (false, []) m hm2 with
    h0 | ⟨l, hl, hp⟩
  · simp at h0
  · refine ⟨l, hl, hp, ?_⟩
    by_contra hne
    rw [parseRow_status hne] at hp
    cases hp

/-- Claim C4 witness: a healthy-looking row whose status token is ERR is
dropped. -/
theorem claim_C4_witness :
    parseRow ["1".data, "Util".data, "50.0".data, "%".data, "ERR".data] = none :=
  claim_C4.1 ["1".data, "Util".data, "50.0".data, "%".data, "ERR".data] (by decide)

/-! ### Lemmas about the sampling loop -/

theorem mem_ite_singleton {α : Type} {x a : α} {c : Prop} [Decidable c]
    (h : x ∈ (if c then [a] else [])) : x = a := by
  split at h
  · simpa using h
  · cases h

theorem write_csv_row_shape {ts : String} {d : Sample} {a : Action}
    (h : a ∈ write_csv_row ts d) : ∃ line, a = Action.writeRow line := by
  unfold write_csv_row at h
  rcases List.mem_map.1 h with ⟨m, _, he⟩
  exact ⟨csvRow ts d m, he.symm⟩

theorem runLoop_no_writeHeader (cfg : Config) (start : ℚ) :
    ∀ (envs : List TickEnv) (n : Nat), Action.writeHeader ∉ (runLoop cfg start envs n).1 := by
  intro envs
  induction envs with
  | nil =>
    intro n h
    simp [runLoop] at h
  | cons e rest ih =>
    intro n h
    simp only [runLoop] at h
    by_cases hc : e.cancelled = true
    · rw [if_pos hc] at h
      simp at h
    · rw [if_neg hc] at h
      by_cases hd : durationCheck cfg.duration start e.tCheck = true
      · rw [if_pos hd] at h
        simp at h
      · rw [if_neg hd] at h
        cases hp : e.probe with
        | success out =>
          rw [hp] at h
          dsimp only at h
          rcases List.mem_cons.1 h with h1 | h1
          · cases h1
          · rcases List.mem_append.1 h1 with h2 | h2
            · rcases List.mem_append.1 h2 with h3 | h3
              · rcases write_csv_row_shape h3 with ⟨line, he⟩
                simp at he
              · have hs := mem_ite_singleton h3
                simp at hs
            · exact ih (n + 1) h2
        | nonzero s =>
          rw [hp] at h
          dsimp only at h
          rcases List.mem_cons.1 h with h1 | h1
          · cases h1
          · cases h1
        | timeoutExpired =>
          rw [hp] at h
          dsimp only at h
          rcases List.mem_cons.1 h with h1 | h1
          · cases h1
          · exact ih n h1
        | notFound =>
          rw [hp] at h
          dsimp only at h
          rcases List.mem_cons.1 h with h1 | h1
          · cases h1
          · cases h1

theorem runLoop_invoke_mem (cfg : Config) (start : ℚ) :
    ∀ (envs : List TickEnv) (n : Nat) (e : TickEnv),
      Action.invokeProbe e ∈ (runLoop cfg start envs n).1 →
      e.cancelled = false ∧ durationCheck cfg.duration start e.tCheck = false := by
  intro envs
  induction envs with
  | nil =>
    intro n e h
    simp [runLoop] at h
  | cons e2 rest ih =>
    intro n e h
    simp only [runLoop] at h
    by_cases hc : e2.cancelled = true
    · rw [if_pos hc] at h
      simp at h
    · rw [if_neg hc] at h
      by_cases hd : durationCheck cfg.duration start e2.tCheck = true
      · rw [if_pos hd] at h
        simp at h
      · rw [if_neg hd] at h
        cases hp : e2.probe with
        | success out =>
          rw [hp] at h
          dsimp only at h
          rcases List.mem_cons.1 h with h1 | h1
          · injection h1 with h1e
            subst h1e
            exact ⟨Bool.eq_false_iff.2 hc, Bool.eq_false_iff.2 hd⟩
          · rcases List.mem_append.1 h1 with h2 | h2
            · rcases List.mem_append.1 h2 with h3 | h3
              · rcases write_csv_row_shape h3 with ⟨line, he⟩
                simp at he
              · have hs := mem_ite_singleton h3
                simp at hs
            · exact ih (n + 1) e h2
        | nonzero s =>
          rw [hp] at h
          dsimp only at h
          rcases List.mem_cons.1 h with h1 | h1
          · injection h1 with h1e
            subst h1e
            exact ⟨Bool.eq_false_iff.2 hc, Bool.eq_false_iff.2 hd⟩
          · cases h1
        | timeoutExpired =>
          rw [hp] at h
          dsimp only at h
          rcases List.mem_cons.1 h with h1 | h1
          · injection h1 with h1e
            subst h1e
            exact ⟨Bool.eq_false_iff.2 hc, Bool.eq_false_iff.2 hd⟩
          · exact ih n e h1
        | notFound =>
          rw [hp] at h
          dsimp only at h
          rcases List.mem_cons.1 h with h1 | h1
          · injection h1 with h1e
            subst h1e
            exact ⟨Bool.eq_false_iff.2 hc, Bool.eq_false_iff.2 hd⟩
          · cases h1

theorem runLoop_sleepFor_mem (cfg : Config) (start : ℚ) :
    ∀ (envs : List TickEnv) (n : Nat) (t : ℚ),
      Action.sleepFor t ∈ (runLoop cfg start envs n).1 →
      0 < t ∧ ∃ e ∈ envs, t = sleepTime cfg.interval_sec e.elapsed := by
  intro envs
  induction envs with
  | nil =>
    intro n t h
    simp [runLoop] at h
  | cons e2 rest ih =>
    intro n t h
    simp only [runLoop] at h
    by_cases hc : e2.cancelled = true
    · rw [if_pos hc] at h
      simp at h
    · rw [if_neg hc] at h
      by_cases hd : durationCheck cfg.duration start e2.tCheck = true
      · rw [if_pos hd] at h
        simp at h
      · rw [if_neg hd] at h
        cases hp : e2.probe with
        | success out =>
          rw [hp] at h
          dsimp only at h
          rcases List.mem_cons.1 h with h1 | h1
          · cases h1
          · rcases List.mem_append.1 h1 with h2 | h2
            · rcases List.mem_append.1 h2 with h3 | h3
              · rcases write_csv_row_shape h3 with ⟨line, he⟩
                simp at he
              · by_cases hst : 0 < sleepTime cfg.interval_sec e2.elapsed
                · rw [if_pos hst] at h3
                  simp at h3
                  subst h3
                  exact ⟨hst, e2, List.mem_cons_self e2 rest, rfl⟩
                · rw [if_neg hst] at h3
                  cases h3
            · rcases ih (n + 1) t h2 with ⟨ht, e3, he3, hte⟩
              exact ⟨ht, e3, List.mem_cons_of_mem e2 he3, hte⟩
        | nonzero s =>
          rw [hp] at h
          dsimp only at h
          rcases List.mem_cons.1 h with h1 | h1
          · cases h1
          · cases h1
        | timeoutExpired =>
          rw [hp] at h
          dsimp only at h
          rcases List.mem_cons.1 h with h1 | h1
          · cases h1
          · rcases ih n t h1 with ⟨ht, e3, he3, hte⟩
            exact ⟨ht, e3, List.mem_cons_of_mem e2 he3, hte⟩
        | notFound =>
          rw [hp] at h
          dsimp only at h
          rcases List.mem_cons.1 h with h1 | h1
          · cases h1
          · cases h1

theorem runLoop_durationLimit (cfg : Config) (start : ℚ) :
    ∀ (envs : List TickEnv) (n : Nat),
      (runLoop cfg start envs n).2.2 = StopReason.durationLimit →
      ∃ e ∈ envs, durationCheck cfg.duration start e.tCheck = true := by
  intro envs
  induction envs with
  | nil =>
    intro n h
    simp [runLoop] at h
  | cons e2 rest ih =>
    intro n h
    simp only [runLoop] at h
    by_cases hc : e2.cancelled = true
    · rw [if_pos hc] at h
      simp at h
    · rw [if_neg hc] at h
      by_cases hd : durationCheck cfg.duration start e2.tCheck = true
      · exact ⟨e2, List.mem_cons_self e2 rest, hd⟩
      · rw [if_neg hd] at h
        cases hp : e2.probe with
        | success out =>
          rw [hp] at h
          dsimp only at h
          rcases ih (n + 1) h with ⟨e3, he3, hde3⟩
          exact ⟨e3, List.mem_cons_of_mem e2 he3, hde3⟩
        | nonzero s =>
          rw [hp] at h
          simp at h
        | timeoutExpired =>
          rw [hp] at h
          dsimp only at h
          rcases ih n h with ⟨e3, he3, hde3⟩
          exact ⟨e3, List.mem_cons_of_mem e2 he3, hde3⟩
        | notFound =>
          rw [hp] at h
          simp at h

/-! ### Claims about the sampling loop -/

/-- Claim C6: over any run, whatever the ticks and their outcomes, the CSV
header is written exactly once, and it is the very first write — it precedes
every data row. -/
theorem claim_C6 (cfg : Config) (start : ℚ) (envs : List TickEnv) :
    (run cfg start envs).1.head? = some Action.writeHeader ∧
      (run cfg start envs).1.count Action.writeHeader = 1 := by
  constructor
  · rfl
  · have h1 : Action.writeHeader ∉ (runLoop cfg start envs 0).1 :=
      runLoop_no_writeHeader cfg start envs 0
    unfold run
    dsimp only
    rw [List.count_cons_self, List.count_append, List.count_eq_zero.2 h1]
    simp

/-- Claim C7: a probe timeout leaves the loop running — the tick contributes
only its probe invocation, no data rows, no count increment, and the run
continues with the remaining ticks; a missing binary or a non-zero exit
terminates the run at once; and on every path the final action reports the
total number of samples collected. -/
theorem claim_C7 :
    (∀ (cfg : Config) (start : ℚ) (e : TickEnv) (rest : List TickEnv) (n : Nat),
        e.cancelled = false → durationCheck cfg.duration start e.tCheck = false →
        e.probe = ProbeResult.timeoutExpired →
        runLoop cfg start (e :: rest) n =
          (Action.invokeProbe e :: (runLoop cfg start rest n).1,
            (runLoop cfg start rest n).2.1, (runLoop cfg start rest n).2.2)) ∧
      (∀ (cfg : Config) (start : ℚ) (e : TickEnv) (rest : List TickEnv) (n : Nat),
        e.cancelled = false → durationCheck cfg.duration start e.tCheck = false →
        e.probe = ProbeResult.notFound →
        runLoop cfg start (e :: rest) n =
          ([Action.invokeProbe e], n, StopReason.fatalNotFound)) ∧
      (∀ (cfg : Config) (start : ℚ) (e : TickEnv) (rest : List TickEnv) (n : Nat) (s : String),
        e.cancelled = false → durationCheck cfg.duration start e.tCheck = false →
        e.probe = ProbeResult.nonzero s →
        runLoop cfg start (e :: rest) n =
          ([Action.invokeProbe e], n, StopReason.fatalError)) ∧
      (∀ (cfg : Config) (start : ℚ) (envs : List TickEnv),
        (run cfg start envs).1.getLast? =
          some (Action.reportTotal (run cfg start envs).2.1)) := by
  refine ⟨?_, ?_, ?_, ?_⟩
  · intro cfg start e rest n hc hd hp
    simp [runLoop, hc, hd, hp]
  · intro cfg start e rest n hc hd hp
    simp [runLoop, hc, hd, hp]
  · intro cfg start e rest n s hc hd hp
    simp [runLoop, hc, hd, hp]
  · intro cfg start envs
    unfold run
    dsimp only
    rw [← List.cons_append, List.getLast?_concat]

/-- Claim C7 witness: a concrete missing-binary tick terminates the run with
no sample and reason fatalNotFound. -/
theorem claim_C7_witness :
    runLoop ⟨1, none⟩ 0 [⟨false, 0, "T0", ProbeResult.notFound, 0⟩] 0 =
      ([Action.invokeProbe ⟨false, 0, "T0", ProbeResult.notFound, 0⟩], 0,
        StopReason.fatalNotFound) :=
  claim_C7.2.1 ⟨1, none⟩ 0 ⟨false, 0, "T0", ProbeResult.notFound, 0⟩ [] 0 rfl rfl rfl

/-- Claim C8: the probe of a tick is invoked only when the running flag was
still set and the duration check, performed first, came out false — no tick
starts after the configured duration has elapsed; and whenever the run stops
with reason durationLimit some tick's clock reading had actually passed the
limit. -/
theorem claim_C8 :
    (∀ (cfg : Config) (start : ℚ) (envs : List TickEnv) (e : TickEnv),
        Action.invokeProbe e ∈ (run cfg start envs).1 →
        e.cancelled = false ∧ durationCheck cfg.duration start e.tCheck = false) ∧
      (∀ (cfg : Config) (start : ℚ) (envs : List TickEnv),
        (run cfg start envs).2.2 = StopReason.durationLimit →
        ∃ e ∈ envs, durationCheck cfg.duration start e.tCheck = true) := by
  constructor
  · intro cfg start envs e h
    have h2 : Action.invokeProbe e ∈ (runLoop cfg start envs 0).1 := by
      unfold run at h
      dsimp only at h
      rcases List.mem_cons.1 h with h1 | h1
      · cases h1
      · rcases List.mem_append.1 h1 with h2 | h2
        · exact h2
        · simp at h2
    exact runLoop_invoke_mem cfg start envs 0 e h2
  · intro cfg start envs h
    exact runLoop_durationLimit cfg start envs 0 h

/-- Claim C8 witness: the probe invocation of a concrete tick implies its
duration check was false. -/
theorem claim_C8_witness :
    (⟨false, 0, "T0", ProbeResult.timeoutExpired, 0⟩ : TickEnv).cancelled = false ∧
      durationCheck (Config.mk 1 none).duration 0
        (⟨false, 0, "T0", ProbeResult.timeoutExpired, 0⟩ : TickEnv).tCheck = false :=
  claim_C8.1 ⟨1, none⟩ 0 [⟨false, 0, "T0", ProbeResult.timeoutExpired, 0⟩]
    ⟨false, 0, "T0", ProbeResult.timeoutExpired, 0⟩ (by decide)

/-- Claim C9: the sleep computed after a successful tick is the configured
interval minus the tick's elapsed time clamped at zero — never negative, and
exactly zero once the tick took at least the interval; accordingly every
sleep actually performed by a run is positive and equals that clamped
remainder for one of its ticks. -/
theorem claim_C9 :
    (∀ interval_sec elapsed : ℚ,
        sleepTime interval_sec elapsed = max 0 (interval_sec - elapsed) ∧
          0 ≤ sleepTime interval_sec elapsed ∧
          (interval_sec ≤ elapsed → sleepTime interval_sec elapsed = 0)) ∧
      (∀ (cfg : Config) (start : ℚ) (envs : List TickEnv) (t : ℚ),
        Action.sleepFor t ∈ (run cfg start envs).1 →
        0 < t ∧ ∃ e ∈ envs, t = sleepTime cfg.interval_sec e.elapsed) := by
  constructor
  · intro i e
    refine ⟨rfl, le_max_left 0 _, fun h => ?_⟩
    unfold sleepTime
    rw [max_eq_left (by linarith)]
  · intro cfg start envs t h
    have h2 : Action.sleepFor t ∈ (runLoop cfg start envs 0).1 := by
      unfold run at h
      dsimp only at h
      rcases List.mem_cons.1 h with h1 | h1
      · cases h1
      · rcases List.mem_append.1 h1 with h2 | h2
        · exact h2
        · simp at h2
    exact runLoop_sleepFor_mem cfg start envs 0 t h2

/-- Claim C9 witness: with a 1-unit interval a 2-unit tick sleeps zero, and
the 1-unit sleep of a concrete run with a 2-unit interval and a 1-unit tick
is positive and equals the clamped remainder. -/
theorem claim_C9_witness :
    sleepTime 1 2 = 0 ∧
      (0 < (1 : ℚ) ∧ ∃ e ∈ [(⟨false, 0, "T0", ProbeResult.success "", 1⟩ : TickEnv)],
        (1 : ℚ) = sleepTime (Config.mk 2 none).interval_sec e.elapsed) := by
  constructor
  · exact (claim_C9.1 1 2).2.2 (by norm_num)
  · refine claim_C9.2 ⟨2, none⟩ 0 [⟨false, 0, "T0", ProbeResult.success "", 1⟩] 1 ?_
    have hp : parse_output "" = ⟨"0", "Unknown", "", "", []⟩ := by decide
    norm_num [run, runLoop, durationCheck, sleepTime, write_csv_row, hp]

theorem durationCheck_zero (start now : ℚ) : durationCheck (some 0) start now = false := by
  simp [durationCheck]

theorem runLoop_zero_duration (i : ℚ) (start : ℚ) :
    ∀ (envs : List TickEnv) (n : Nat),
      runLoop ⟨i, some 0⟩ start envs n = runLoop ⟨i, none⟩ start envs n := by
  intro envs
  induction envs with
  | nil => intro n; rfl
  | cons e rest ih =>
    intro n
    simp only [runLoop]
    have h0 : durationCheck (Config.mk i (some 0)).duration start e.tCheck = false :=
      durationCheck_zero start e.tCheck
    have h1 : durationCheck (Config.mk i none).duration start e.tCheck = false := rfl
    cases hc : e.cancelled
    · cases hpr : e.probe <;> simp [h0, h1, hc, hpr, ih]
    · simp [hc]

theorem runLoop_none_not_durationLimit (i start : ℚ) :
    ∀ (envs : List TickEnv) (n : Nat),
      (runLoop ⟨i, none⟩ start envs n).2.2 ≠ StopReason.durationLimit := by
  intro envs
  induction envs with
  | nil =>
    intro n h
    simp [runLoop] at h
  | cons e rest ih =>
    intro n h
    simp only [runLoop] at h
    have h1 : durationCheck (Config.mk i none).duration start e.tCheck = false := rfl
    rw [h1] at h
    by_cases hc : e.cancelled = true
    · rw [if_pos hc] at h
      simp at h
    · rw [if_neg hc] at h
      simp only [Bool.false_eq_true, if_false] at h
      cases hp : e.probe with
      | success out =>
        rw [hp] at h
        dsimp only at h
        exact ih (n + 1) h
      | nonzero s =>
        rw [hp] at h
        simp at h
      | timeoutExpired =>
        rw [hp] at h
        dsimp only at h
        exact ih n h
      | notFound =>
        rw [hp] at h
        simp at h

/-- Claim C10: a configured duration of exactly 0 is falsy, so the duration
check never fires: the run behaves identically to an unbounded run and can
never stop with reason durationLimit. -/
theorem claim_C10 (cfg : Config) (start : ℚ) (envs : List TickEnv)
    (h : cfg.duration = some 0) :
    run cfg start envs = run ⟨cfg.interval_sec, none⟩ start envs ∧
      (run cfg start envs).2.2 ≠ StopReason.durationLimit := by
  obtain ⟨i, d⟩ := cfg
  simp only at h
  subst h
  constructor
  · unfold run
    rw [runLoop_zero_duration i start envs 0]
  · unfold run
    dsimp only
    rw [runLoop_zero_duration i start envs 0]
    exact runLoop_none_not_durationLimit i start envs 0

/-- Claim C10 witness: the zero-duration configuration coincides with the
unbounded one on a concrete run. -/
theorem claim_C10_witness :
    run ⟨1, some 0⟩ 0 [] = run ⟨1, none⟩ 0 [] ∧
      (run (⟨1, some 0⟩ : Config) 0 []).2.2 ≠ StopReason.durationLimit :=
  claim_C10 ⟨1, some 0⟩ 0 [] rfl

end GPM
